import Mathlib

/-!
Shallow embedding of `src/main.cpp` (Spotify-LLD, a music-player design
exercise): data model (`Song`, `Playlist`), the three play strategies
(Sequential, Random, CustomQueue), the audio engine, and the facade.
C++ exceptions are modelled with `Except`, member mutation with explicit
state passing, and the process-wide `rand()` source with an explicit
stream `rng : Nat → Nat` together with a call counter.
-/

/-- `class Song` (main.cpp lines 13-18): title and artist strings. The C++
constructor defaults both fields to the empty string. -/
structure Song where
  title : String
  artist : String
deriving DecidableEq, Repr

instance : Inhabited Song := ⟨⟨"", ""⟩⟩

/-- `class Playlist` (main.cpp lines 20-29): an ordered sequence of songs. -/
structure Playlist where
  songs : List Song
deriving DecidableEq, Repr

/-- `Playlist::addSong` (line 23): push_back at the end. -/
def Playlist.addSong (p : Playlist) (s : Song) : Playlist :=
  ⟨p.songs ++ [s]⟩

/-- `Playlist::size` (line 28). -/
def Playlist.size (p : Playlist) : Nat := p.songs.length

/-- `Playlist::removeSong` (lines 24-26): erase the element at `index` when
`index < songs.size()`, otherwise do nothing. `erase(begin()+index)` keeps
the elements before `index` and shifts the ones after it down by one. -/
def Playlist.removeSong (p : Playlist) (index : Nat) : Playlist :=
  if index < p.songs.length then
    ⟨p.songs.take index ++ p.songs.drop (index + 1)⟩
  else p

/-- The error kinds of the design (spec section 7); each corresponds to one
`throw runtime_error(...)` site in main.cpp. -/
inductive PlayError
  /-- "Playlist is empty" (lines 126, 139, 156). -/
  | emptyPlaylist
  /-- "Custom queue is empty" (line 157). -/
  | emptyQueue
  /-- "Queue index out of range" (line 159). -/
  | indexOutOfRange
  /-- "AudioEngine not configured" (line 212). -/
  | notConfigured
  /-- "Failed to create device" (line 181). -/
  | deviceCreationFailed
  /-- "Invalid strategy type" (lines 237, 245). -/
  | invalidStrategy
  /-- "Failed to cast to CustomQueueStrategy" (line 247). -/
  | internalInvariantViolation
deriving DecidableEq, Repr

/-- `enum class DeviceType` (line 32). -/
inductive DeviceType
  | bluetooth
  | wired
  | headphones
deriving DecidableEq, Repr

/-- `enum class PlayStrategyType` (line 33). -/
inductive PlayStrategyType
  | sequential
  | random
  | customQueue
deriving DecidableEq, Repr

/-- The three adapter classes implementing `IAudioOutputDevice`
(lines 66-94); each is stateless apart from its (inert) API object. -/
inductive OutputDevice
  | bluetoothSpeakerAdapter
  | wiredSpeakerAdapter
  | headphonesAdapter
deriving DecidableEq, Repr

/-- `playSound` of each adapter composes a description string and hands it to
its API, which prints one line (lines 39-41, 46-48, 53-55, 70-73, 80-83,
90-93). The emitted line is the observable output of playing a song. -/
def OutputDevice.playSound : OutputDevice → Song → String
  | .bluetoothSpeakerAdapter, s =>
      "[BluetoothSpeakerAPI] Playing data: " ++
        ("Bluetooth play: " ++ s.title ++ " by " ++ s.artist)
  | .wiredSpeakerAdapter, s =>
      "[WiredSpeakerAPI] Playing data: " ++
        ("Wired play: " ++ s.title ++ " by " ++ s.artist)
  | .headphonesAdapter, s =>
      "[HeadphonesAPI] Playing data: " ++
        ("Headphones play: " ++ s.title ++ " by " ++ s.artist)

/-- `DeviceFactory::create` (lines 97-111). The C++ switch has a defensive
`default: return nullptr`; over the closed enumeration every case returns a
fresh adapter, so the `none` value is never produced. -/
def DeviceFactory.create : DeviceType → Option OutputDevice
  | .bluetooth => some .bluetoothSpeakerAdapter
  | .wired => some .wiredSpeakerAdapter
  | .headphones => some .headphonesAdapter

/-- `SequentialPlayStrategy::getNextSong` (lines 125-130). The mutable
member `index` is threaded explicitly: the result pairs the returned song
(or the thrown error) with the member's value after the call. The vector
access `getSongs()[index % size]` is rendered as `getD`; its index is
below `size` whenever the guard passes, so the default is never consulted.
The throw on an empty playlist happens before any mutation. -/
def SequentialPlayStrategy.getNextSong (index : Nat) (p : Playlist) :
    Except PlayError Song × Nat :=
  if p.size = 0 then (.error .emptyPlaylist, index)
  else
    (.ok (p.songs.getD (index % p.size) default), (index + 1) % p.size)

/-- `SequentialPlayStrategy::reset` (line 131): `index = 0`. -/
def SequentialPlayStrategy.reset (_ : Nat) : Nat := 0

/-- `RandomPlayStrategy::getNextSong` (lines 138-142). `rand()` is modelled
by an explicit stream `rng` indexed by how many draws have happened; the
call draws `rng calls` and advances the counter. The vector access
`getSongs()[rand() % size]` is rendered as `getD`, with the index below
`size` whenever the guard passes. On an empty playlist the strategy throws
before drawing. -/
def RandomPlayStrategy.getNextSong (rng : Nat → Nat) (calls : Nat)
    (p : Playlist) : Except PlayError Song × Nat :=
  if p.size = 0 then (.error .emptyPlaylist, calls)
  else
    (.ok (p.songs.getD (rng calls % p.size) default), calls + 1)

/-- `RandomPlayStrategy::reset` (line 143): empty body, no state change. -/
def RandomPlayStrategy.reset (calls : Nat) : Nat := calls

/-- The mutable members of `CustomQueueStrategy` (lines 148-149):
`queueIndices` and `pos`. -/
structure CQState where
  queueIndices : List Nat
  pos : Nat
deriving DecidableEq, Repr

/-- `CustomQueueStrategy::setQueue` (lines 151-154): store the supplied
queue verbatim (no bounds validation of its entries) and set `pos = 0`. -/
def CustomQueueStrategy.setQueue (_ : CQState) (q : List Nat) : CQState :=
  ⟨q, 0⟩

/-- `CustomQueueStrategy::getNextSong` (lines 155-163). Checks, in order:
empty playlist, empty queue, then the entry `queueIndices[pos % len]`
against the playlist size; only on success does `pos` advance. The two
vector accesses are rendered as `getD` and are in range whenever the
guards pass (`pos % len < len`, and the entry below `size` respectively),
so the defaults are never consulted. Every throw happens before the
mutation of `pos`, so on error the returned state equals the input
state. -/
def CustomQueueStrategy.getNextSong (st : CQState) (p : Playlist) :
    Except PlayError Song × CQState :=
  if p.size = 0 then (.error .emptyPlaylist, st)
  else if st.queueIndices.length = 0 then (.error .emptyQueue, st)
  else if st.queueIndices.getD (st.pos % st.queueIndices.length) 0 < p.size then
    (.ok (p.songs.getD
      (st.queueIndices.getD (st.pos % st.queueIndices.length) 0) default),
     ⟨st.queueIndices, (st.pos + 1) % st.queueIndices.length⟩)
  else (.error .indexOutOfRange, st)

/-- `CustomQueueStrategy::reset` (line 164): `pos = 0`, queue untouched. -/
def CustomQueueStrategy.reset (st : CQState) : CQState :=
  ⟨st.queueIndices, 0⟩

/-- A `PlayStrategy` object at runtime: which concrete class it is plus its
mutable members (the Random variant also carries the modelled `rand()`
stream). -/
inductive StrategyState
  | sequential (index : Nat)
  | random (rng : Nat → Nat) (calls : Nat)
  | customQueue (st : CQState)

/-- Virtual dispatch of `getNextSong` (line 116). -/
def StrategyState.getNextSong :
    StrategyState → Playlist → Except PlayError Song × StrategyState
  | .sequential i, p =>
      let r := SequentialPlayStrategy.getNextSong i p
      (r.1, .sequential r.2)
  | .random rng c, p =>
      let r := RandomPlayStrategy.getNextSong rng c p
      (r.1, .random rng r.2)
  | .customQueue st, p =>
      let r := CustomQueueStrategy.getNextSong st p
      (r.1, .customQueue r.2)

/-- Virtual dispatch of `reset` (line 117). -/
def StrategyState.reset : StrategyState → StrategyState
  | .sequential i => .sequential (SequentialPlayStrategy.reset i)
  | .random rng c => .random rng (RandomPlayStrategy.reset c)
  | .customQueue st => .customQueue (CustomQueueStrategy.reset st)

/-- `dynamic_cast<CustomQueueStrategy*>` (line 246): succeeds exactly on the
CustomQueue variant. -/
def StrategyState.asCustomQueue : StrategyState → Option CQState
  | .customQueue st => some st
  | _ => none

/-- `StrategyManager::createStrategy` (lines 188-199). As with the device
factory, the defensive `default: return nullptr` is unreachable over the
closed enumeration. A fresh `RandomPlayStrategy` seeds the process-wide
`rand()` from the clock (line 137); the seeded stream is the explicit
parameter `rng`. -/
def StrategyManager.createStrategy (rng : Nat → Nat) :
    PlayStrategyType → Option StrategyState
  | .sequential => some (.sequential 0)
  | .random => some (.random rng 0)
  | .customQueue => some (.customQueue ⟨[], 0⟩)

/-- `class AudioEngine` (lines 203-219): at most one bound playlist view,
strategy, and device, all null until configured. The C++ members are
pointers into facade-owned objects; here the bound values are stored and
the facade mirrors updates to keep the alias in sync. -/
structure AudioEngine where
  playlist : Option Playlist
  strategy : Option StrategyState
  device : Option OutputDevice

/-- `AudioEngine::loadPlaylist` (line 208). -/
def AudioEngine.loadPlaylist (e : AudioEngine) (p : Playlist) : AudioEngine :=
  { e with playlist := some p }

/-- `AudioEngine::setStrategy` (line 209): store the strategy and
immediately call its `reset()`. -/
def AudioEngine.setStrategy (e : AudioEngine) (ps : StrategyState) :
    AudioEngine :=
  { e with strategy := some ps.reset }

/-- `AudioEngine::setDevice` (line 210). -/
def AudioEngine.setDevice (e : AudioEngine) (d : OutputDevice) : AudioEngine :=
  { e with device := some d }

/-- `AudioEngine::playNext` (lines 211-215): throw `NotConfigured` when any
of the three bindings is null; otherwise pull one song from the strategy
(whose exceptions propagate unchanged, with the strategy state as the
callee left it) and push it to the device. The result pairs the emitted
device line (or the error) with the engine afterwards. -/
def AudioEngine.playNext (e : AudioEngine) :
    Except PlayError String × AudioEngine :=
  match e.playlist, e.strategy, e.device with
  | some pl, some st, some dev =>
      match st.getNextSong pl with
      | (.ok s, st2) =>
          (.ok (dev.playSound s), { e with strategy := some st2 })
      | (.error er, st2) => (.error er, { e with strategy := some st2 })
  | _, _, _ => (.error .notConfigured, e)

/-- `AudioEngine::playMultiple` (lines 216-218): call `playNext` `count`
times; a thrown error aborts the loop at once and propagates. On success
the emitted device lines are collected in call order. -/
def AudioEngine.playMultiple : Nat → AudioEngine → Except PlayError (List String) × AudioEngine
  | 0, e => (.ok [], e)
  | n + 1, e =>
      match e.playNext with
      | (.ok out, e1) =>
          match AudioEngine.playMultiple n e1 with
          | (.ok outs, e2) => (.ok (out :: outs), e2)
          | (.error er, e2) => (.error er, e2)
      | (.error er, e1) => (.error er, e1)

/-- `class MusicPlayerFacade` (lines 222-258): owns the playlist manager,
the device manager, the strategy object, and the engine. The engine's
members alias the facade-owned objects; aliasing is modelled by mirroring
every update into both places. -/
structure MusicPlayerFacade where
  playlistManager : Playlist
  deviceManager : Option OutputDevice
  strategyPtr : Option StrategyState
  engine : AudioEngine

/-- A freshly constructed facade (line 262): empty playlist, no device, no
strategy, engine unconfigured. -/
def MusicPlayerFacade.init : MusicPlayerFacade :=
  ⟨⟨[]⟩, none, none, ⟨none, none, none⟩⟩

/-- `MusicPlayerFacade::addSongToPlaylist` (lines 228-230). The engine's
playlist pointer aliases the manager's playlist, so a wired engine sees the
new song. -/
def MusicPlayerFacade.addSongToPlaylist (f : MusicPlayerFacade) (s : Song) :
    MusicPlayerFacade :=
  let pl := f.playlistManager.addSong s
  { f with
    playlistManager := pl
    engine := { f.engine with playlist := f.engine.playlist.map fun _ => pl } }

/-- `MusicPlayerFacade::removeSongFromPlaylist` (lines 231-233), with the
same aliasing as `addSongToPlaylist`. -/
def MusicPlayerFacade.removeSongFromPlaylist (f : MusicPlayerFacade)
    (index : Nat) : MusicPlayerFacade :=
  let pl := f.playlistManager.removeSong index
  { f with
    playlistManager := pl
    engine := { f.engine with playlist := f.engine.playlist.map fun _ => pl } }

/-- `MusicPlayerFacade::configure` (lines 234-241), statement by statement:
`selectDevice` builds the new device and the assignment replaces (and
frees) the old one, throwing `deviceCreationFailed` when the factory hands
back null; the `strategyPtr` assignment likewise replaces the old strategy
and throws `invalidStrategy` on null; then the engine is wired with the new
device, the new strategy (reset by `setStrategy`), and the current
playlist. A throw leaves the facade with the mutations already performed,
as the C++ exception would. -/
def MusicPlayerFacade.configure (f : MusicPlayerFacade) (rng : Nat → Nat)
    (dt : DeviceType) (pst : PlayStrategyType) :
    Except PlayError Unit × MusicPlayerFacade :=
  match DeviceFactory.create dt with
  | none => (.error .deviceCreationFailed, { f with deviceManager := none })
  | some dev =>
      match StrategyManager.createStrategy rng pst with
      | none =>
          (.error .invalidStrategy,
           { f with deviceManager := some dev, strategyPtr := none })
      | some sp =>
          let e1 := f.engine.setDevice dev
          let e2 := e1.setStrategy sp
          let e3 := e2.loadPlaylist f.playlistManager
          (.ok (),
           { f with
             deviceManager := some dev
             strategyPtr := some sp.reset
             engine := e3 })

/-- `MusicPlayerFacade::configureCustom` (lines 242-252): like `configure`
with the strategy kind forced to CustomQueue, plus the `dynamic_cast`
capability check (throwing on failure, which never happens since the
factory returns the CustomQueue variant for that kind) and the `setQueue`
call before wiring. -/
def MusicPlayerFacade.configureCustom (f : MusicPlayerFacade)
    (rng : Nat → Nat) (dt : DeviceType) (customQueue : List Nat) :
    Except PlayError Unit × MusicPlayerFacade :=
  match DeviceFactory.create dt with
  | none => (.error .deviceCreationFailed, { f with deviceManager := none })
  | some dev =>
      match StrategyManager.createStrategy rng .customQueue with
      | none =>
          (.error .invalidStrategy,
           { f with deviceManager := some dev, strategyPtr := none })
      | some sp =>
          match sp.asCustomQueue with
          | none =>
              (.error .internalInvariantViolation,
               { f with deviceManager := some dev, strategyPtr := some sp })
          | some cq =>
              let sp2 := StrategyState.customQueue
                (CustomQueueStrategy.setQueue cq customQueue)
              let e1 := f.engine.setDevice dev
              let e2 := e1.setStrategy sp2
              let e3 := e2.loadPlaylist f.playlistManager
              (.ok (),
               { f with
                 deviceManager := some dev
                 strategyPtr := some sp2.reset
                 engine := e3 })

/-- `MusicPlayerFacade::playNext` (line 253): delegate to the engine; the
strategy mutation made through the engine's pointer is mirrored back into
`strategyPtr`. -/
def MusicPlayerFacade.playNext (f : MusicPlayerFacade) :
    Except PlayError String × MusicPlayerFacade :=
  let r := f.engine.playNext
  (r.1, { f with engine := r.2, strategyPtr := r.2.strategy })

/-- `MusicPlayerFacade::playMultiple` (line 254). -/
def MusicPlayerFacade.playMultiple (f : MusicPlayerFacade) (count : Nat) :
    Except PlayError (List String) × MusicPlayerFacade :=
  let r := AudioEngine.playMultiple count f.engine
  (r.1, { f with engine := r.2, strategyPtr := r.2.strategy })

/-- `MusicPlayerFacade::getPlaylist` (lines 255-257). -/
def MusicPlayerFacade.getPlaylist (f : MusicPlayerFacade) : Playlist :=
  f.playlistManager

/-- Repeated `getNextSong` calls against a fixed playlist: the list of the
first `n` call results together with the strategy state afterwards. -/
def strategyCalls (p : Playlist) :
    Nat → StrategyState → List (Except PlayError Song) × StrategyState
  | 0, st => ([], st)
  | n + 1, st =>
      let r := st.getNextSong p
      let rest := strategyCalls p n r.2
      (r.1 :: rest.1, rest.2)

/-- The result of the `(k+1)`-th `getNextSong` call of a Sequential
strategy started fresh (cursor 0) against `p`, counting from `k = 0`. -/
def seqNthCall (p : Playlist) (k : Nat) : Except PlayError Song :=
  ((strategyCalls p k (.sequential 0)).2.getNextSong p).1

/-- The engine after `n` successive `playNext` calls. -/
def AudioEngine.engAfter : Nat → AudioEngine → AudioEngine
  | 0, e => e
  | n + 1, e => (AudioEngine.engAfter n e).playNext.2

/-- The emitted line of a successful `playNext` result. -/
def okValue : Except PlayError String → String
  | .ok s => s
  | .error _ => ""

/-- The primitive steps of `MusicPlayerFacade::configure`, used to reason
about their order. A `unique_ptr` assignment first materialises the new
object, then destroys the one previously held. -/
inductive ConfigEvent
  | createDevice
  | discardOldDevice
  | createStrategy
  | discardOldStrategy
  | wireDevice
  | wireStrategy
  | wirePlaylist
deriving DecidableEq, Repr

/-- Statement-order trace of `MusicPlayerFacade::configure` (lines 234-241)
when a prior configuration exists: `selectDevice` (line 235) builds the new
adapter and its `unique_ptr` assignment destroys the old one; the
`strategyPtr` assignment (line 236) builds the new strategy and destroys
the old one; only then is the engine wired (lines 238-240). -/
def configureEvents : List ConfigEvent :=
  [.createDevice, .discardOldDevice, .createStrategy, .discardOldStrategy,
   .wireDevice, .wireStrategy, .wirePlaylist]

/-- Whether an event destroys a previously held object. -/
def ConfigEvent.isDiscard : ConfigEvent → Bool
  | .discardOldDevice | .discardOldStrategy => true
  | _ => false

/-- Whether an event wires a new object into the engine. -/
def ConfigEvent.isWire : ConfigEvent → Bool
  | .wireDevice | .wireStrategy | .wirePlaylist => true
  | _ => false

/-- `true` when every discard step comes after every wiring step, i.e. no
wiring step occurs later in the trace than some discard step. -/
def allWiresBeforeDiscards : List ConfigEvent → Bool
  | [] => true
  | e :: rest =>
      (!e.isDiscard || rest.all fun x => !x.isWire) &&
        allWiresBeforeDiscards rest

/-- `true` when every wiring step comes after every discard step. -/
def allDiscardsBeforeWires : List ConfigEvent → Bool
  | [] => true
  | e :: rest =>
      (!e.isWire || rest.all fun x => !x.isDiscard) &&
        allDiscardsBeforeWires rest

/-- A fixed stand-in for the time-seeded `rand()` stream, used by the
concrete evaluations below. -/
def wRng : Nat → Nat := fun n => 5 * n + 3

/-- The four songs seeded by `main` (lines 265-268). -/
def wSongs : List Song :=
  [⟨"Lose Yourself", "Eminem"⟩, ⟨"Bohemian Rhapsody", "Queen"⟩,
   ⟨"Blinding Lights", "The Weeknd"⟩, ⟨"Imagine", "John Lennon"⟩]

/-- The playlist of `main` after seeding. -/
def wPl : Playlist := ⟨wSongs⟩

/-- A two-song playlist for concrete evaluations. -/
def wPl2 : Playlist := ⟨[⟨"a", "x"⟩, ⟨"b", "y"⟩]⟩

/-- A configured engine: `wPl2`, fresh Sequential strategy, headphones. -/
def wEngine : AudioEngine :=
  ⟨some wPl2, some (.sequential 0), some .headphonesAdapter⟩

/-- An engine whose bound playlist is empty, so every `playNext` throws. -/
def wEngineEmpty : AudioEngine :=
  ⟨some ⟨[]⟩, some (.sequential 0), some .headphonesAdapter⟩

/-- A mid-session facade: `wPl` bound, Sequential cursor already advanced
to 2, headphones wired. -/
def wFacadeMid : MusicPlayerFacade :=
  ⟨wPl, some .headphonesAdapter, some (.sequential 2),
   ⟨some wPl, some (.sequential 2), some .headphonesAdapter⟩⟩

/-- C5: for every playlist and every `index ≥ size()`, `removeSong index`
is a no-op that leaves the playlist unchanged and does not fail; for every
`index < size()`, it removes the track at that position and compacts the
indices to `0..len-1`: the size drops by one, positions below `index` keep
their track, and each position `j ≥ index` now holds the former track
`j+1`. -/
theorem removeSong_noop_or_compacts (p : Playlist) (i : Nat) :
    (p.size ≤ i → p.removeSong i = p) ∧
    (i < p.size →
      (p.removeSong i).size = p.size - 1 ∧
      (∀ j, j < i → (p.removeSong i).songs[j]? = p.songs[j]?) ∧
      (∀ j, i ≤ j → (p.removeSong i).songs[j]? = p.songs[j + 1]?)) := by
  constructor
  · intro hge
    have hge2 : p.songs.length ≤ i := hge
    unfold Playlist.removeSong
    rw [if_neg (Nat.not_lt.mpr hge2)]
  · intro hlt
    have hl : i < p.songs.length := hlt
    refine ⟨?_, ?_, ?_⟩
    · show (p.removeSong i).songs.length = p.songs.length - 1
      unfold Playlist.removeSong
      rw [if_pos hl]
      show (p.songs.take i ++ p.songs.drop (i + 1)).length = p.songs.length - 1
      rw [List.length_append, List.length_take, List.length_drop]
      omega
    · intro j hj
      unfold Playlist.removeSong
      rw [if_pos hl]
      show (p.songs.take i ++ p.songs.drop (i + 1))[j]? = p.songs[j]?
      rw [List.getElem?_append, List.length_take]
      rw [if_pos (show j < min i p.songs.length by omega)]
      rw [List.getElem?_take, if_pos hj]
    · intro j hj
      unfold Playlist.removeSong
      rw [if_pos hl]
      show (p.songs.take i ++ p.songs.drop (i + 1))[j]? = p.songs[j + 1]?
      rw [List.getElem?_append, List.length_take]
      rw [if_neg (show ¬ j < min i p.songs.length by omega)]
      rw [List.getElem?_drop]
      have harith : i + 1 + (j - min i p.songs.length) = j + 1 := by omega
      rw [harith]

/-- Witness for C5 at a concrete playlist and indices. -/
theorem removeSong_noop_or_compacts_witness :
    wPl.removeSong 4 = wPl ∧ (wPl.removeSong 1).size = wPl.size - 1 := by
  refine ⟨(removeSong_noop_or_compacts wPl 4).1 (by decide), ?_⟩
  exact ((removeSong_noop_or_compacts wPl 1).2 (by decide)).1

/-- Helper: successful CustomQueue call, in `getD` form. -/
theorem cqNext_ok (st : CQState) (p : Playlist) (hp : 0 < p.size)
    (hq : 0 < st.queueIndices.length)
    (hlt : st.queueIndices.getD (st.pos % st.queueIndices.length) 0 < p.size) :
    CustomQueueStrategy.getNextSong st p =
      (.ok (p.songs.getD
        (st.queueIndices.getD (st.pos % st.queueIndices.length) 0) default),
       ⟨st.queueIndices, (st.pos + 1) % st.queueIndices.length⟩) := by
  unfold CustomQueueStrategy.getNextSong
  rw [if_neg (by omega), if_neg (by omega), if_pos hlt]

/-- Helper: CustomQueue call hitting an out-of-range queue entry. -/
theorem cqNext_oob (st : CQState) (p : Playlist) (hp : 0 < p.size)
    (hq : 0 < st.queueIndices.length)
    (hge : p.size ≤ st.queueIndices.getD (st.pos % st.queueIndices.length) 0) :
    CustomQueueStrategy.getNextSong st p = (.error .indexOutOfRange, st) := by
  unfold CustomQueueStrategy.getNextSong
  rw [if_neg (by omega), if_neg (by omega), if_neg (by omega)]

/-- C2: on a non-empty playlist and non-empty queue, a successful
CustomQueue `getNextSong` returns `playlist[queue[pos mod len(queue)]]`
and advances `pos` to `(pos+1) mod len(queue)`; in particular with queue
`[1,0,3,2]` over a 4-track playlist the calls return the tracks at
positions 1,0,3,2 in that exact cyclic order, repeating after 4 calls. -/
theorem customQueue_success_order (st : CQState) (p : Playlist)
    (hp : 0 < p.size) (hq : 0 < st.queueIndices.length)
    (hlt : st.queueIndices.getD (st.pos % st.queueIndices.length) 0 < p.size) :
    CustomQueueStrategy.getNextSong st p =
      (.ok (p.songs.getD
        (st.queueIndices.getD (st.pos % st.queueIndices.length) 0) default),
       ⟨st.queueIndices, (st.pos + 1) % st.queueIndices.length⟩) ∧
    (∀ s0 s1 s2 s3 : Song,
      (strategyCalls ⟨[s0, s1, s2, s3]⟩ 8 (.customQueue ⟨[1, 0, 3, 2], 0⟩)).1 =
        [.ok s1, .ok s0, .ok s3, .ok s2, .ok s1, .ok s0, .ok s3, .ok s2]) := by
  refine ⟨cqNext_ok st p hp hq hlt, fun s0 s1 s2 s3 => ?_⟩
  simp [strategyCalls, StrategyState.getNextSong,
    CustomQueueStrategy.getNextSong, Playlist.size]

/-- Witness for C2 on the playlist of `main` with queue `[1,0,3,2]`. -/
theorem customQueue_success_order_witness :
    CustomQueueStrategy.getNextSong ⟨[1, 0, 3, 2], 0⟩ wPl =
      (.ok ⟨"Bohemian Rhapsody", "Queen"⟩, ⟨[1, 0, 3, 2], 1⟩) := by
  rw [(customQueue_success_order ⟨[1, 0, 3, 2], 0⟩ wPl (by decide) (by decide)
        (by decide)).1]
  rfl

/-- C3: CustomQueue `getNextSong` fails with emptyPlaylist on an empty
playlist; otherwise with emptyQueue on an empty queue — in particular on a
freshly created CustomQueue strategy, before any queue is supplied;
otherwise it fails with indexOutOfRange exactly when the queue entry at
`pos mod len(queue)` is `≥ playlist.size`; and the bound is checked
lazily: `setQueue` stores any queue without validating its entries. -/
theorem customQueue_error_cases (st : CQState) (p : Playlist) :
    (p.size = 0 →
      CustomQueueStrategy.getNextSong st p = (.error .emptyPlaylist, st)) ∧
    (0 < p.size → st.queueIndices = [] →
      CustomQueueStrategy.getNextSong st p = (.error .emptyQueue, st)) ∧
    (0 < p.size → 0 < st.queueIndices.length →
      p.size ≤ st.queueIndices.getD (st.pos % st.queueIndices.length) 0 →
      CustomQueueStrategy.getNextSong st p = (.error .indexOutOfRange, st)) ∧
    (0 < p.size → 0 < st.queueIndices.length →
      ((CustomQueueStrategy.getNextSong st p).1 = .error .indexOutOfRange ↔
        p.size ≤ st.queueIndices.getD (st.pos % st.queueIndices.length) 0)) ∧
    (∀ q : List Nat, CustomQueueStrategy.setQueue st q = ⟨q, 0⟩) ∧
    (∀ (rng : Nat → Nat) (s : StrategyState),
      StrategyManager.createStrategy rng .customQueue = some s →
      0 < p.size →
      s.getNextSong p = (.error .emptyQueue, s)) := by
  refine ⟨?_, ?_, ?_, ?_, fun q => rfl, ?_⟩
  · intro h0
    unfold CustomQueueStrategy.getNextSong
    rw [if_pos h0]
  · intro hp hnil
    unfold CustomQueueStrategy.getNextSong
    rw [if_neg (by omega), if_pos (by rw [hnil]; rfl)]
  · intro hp hq hge
    exact cqNext_oob st p hp hq hge
  · intro hp hq
    constructor
    · intro heq
      by_contra hlt
      push_neg at hlt
      rw [cqNext_ok st p hp hq hlt] at heq
      exact absurd heq (by simp)
    · intro hge
      rw [cqNext_oob st p hp hq hge]
  · intro rng s hs hp
    have hs2 : s = .customQueue ⟨[], 0⟩ := by
      simpa [StrategyManager.createStrategy] using hs.symm
    subst hs2
    have hcq : CustomQueueStrategy.getNextSong ⟨[], 0⟩ p =
        (.error .emptyQueue, ⟨[], 0⟩) := by
      unfold CustomQueueStrategy.getNextSong
      rw [if_neg (by omega)]
      rfl
    simp [StrategyState.getNextSong, hcq]

/-- Witness for C3: the empty-queue failure of a fresh strategy and the
lazy out-of-range failure, both on the playlist of `main`. -/
theorem customQueue_error_cases_witness :
    CustomQueueStrategy.getNextSong ⟨[], 0⟩ wPl =
      (.error .emptyQueue, ⟨[], 0⟩) ∧
    CustomQueueStrategy.getNextSong ⟨[9, 0], 0⟩ wPl =
      (.error .indexOutOfRange, ⟨[9, 0], 0⟩) := by
  refine ⟨(customQueue_error_cases ⟨[], 0⟩ wPl).2.1 (by decide) rfl, ?_⟩
  exact (customQueue_error_cases ⟨[9, 0], 0⟩ wPl).2.2.1 (by decide) (by decide)
    (by decide)

/-- C10: whenever CustomQueue `getNextSong` fails, the cursor `pos` and the
queue are left unchanged (the throw happens before the cursor advance), so
a later successful call reads exactly the queue entry at the unchanged
`pos`. -/
theorem customQueue_failure_preserves_cursor (st : CQState) (p : Playlist)
    (er : PlayError)
    (h : (CustomQueueStrategy.getNextSong st p).1 = .error er) :
    (CustomQueueStrategy.getNextSong st p).2 = st ∧
    (∀ p2 : Playlist, 0 < p2.size → 0 < st.queueIndices.length →
      st.queueIndices.getD (st.pos % st.queueIndices.length) 0 < p2.size →
      (CustomQueueStrategy.getNextSong st p2).1 =
        .ok (p2.songs.getD
          (st.queueIndices.getD (st.pos % st.queueIndices.length) 0)
          default)) := by
  constructor
  · by_cases h0 : p.size = 0
    · unfold CustomQueueStrategy.getNextSong
      rw [if_pos h0]
    · by_cases h1 : st.queueIndices.length = 0
      · unfold CustomQueueStrategy.getNextSong
        rw [if_neg h0, if_pos h1]
      · by_cases h2 :
            st.queueIndices.getD (st.pos % st.queueIndices.length) 0 < p.size
        · rw [cqNext_ok st p (by omega) (by omega) h2] at h
          exact absurd h (by simp)
        · rw [cqNext_oob st p (by omega) (by omega) (by omega)]
  · intro p2 hp2 hq2 hlt2
    rw [cqNext_ok st p2 hp2 hq2 hlt2]

/-- Witness for C10 at a concrete failing call. -/
theorem customQueue_failure_preserves_cursor_witness :
    (CustomQueueStrategy.getNextSong ⟨[9, 0], 1⟩ ⟨[]⟩).2 = ⟨[9, 0], 1⟩ :=
  (customQueue_failure_preserves_cursor ⟨[9, 0], 1⟩ ⟨[]⟩ .emptyPlaylist rfl).1

/-- C9: on a playlist of size `N > 0`, Random `getNextSong` returns the
track at index `rng calls % N`, which is in `[0,N)` and a member of the
playlist, for every value drawn from the random source; on an empty
playlist it fails with emptyPlaylist; and its `reset` changes no state. -/
theorem random_in_range_or_empty (rng : Nat → Nat) (calls : Nat)
    (p : Playlist) :
    (0 < p.size →
      RandomPlayStrategy.getNextSong rng calls p =
        (.ok (p.songs.getD (rng calls % p.size) default), calls + 1) ∧
      rng calls % p.size < p.size ∧
      p.songs.getD (rng calls % p.size) default ∈ p.songs) ∧
    (p.size = 0 →
      RandomPlayStrategy.getNextSong rng calls p =
        (.error .emptyPlaylist, calls)) ∧
    StrategyState.reset (.random rng calls) = .random rng calls := by
  refine ⟨?_, ?_, rfl⟩
  · intro hp
    have hlt : rng calls % p.size < p.size := Nat.mod_lt _ hp
    have hlen : rng calls % p.size < p.songs.length := hlt
    refine ⟨?_, hlt, ?_⟩
    · unfold RandomPlayStrategy.getNextSong
      rw [if_neg (by omega)]
    · rw [List.getD_eq_getElem p.songs default hlen]
      exact List.getElem_mem hlen
  · intro h0
    unfold RandomPlayStrategy.getNextSong
    rw [if_pos h0]

/-- Witness for C9 at a concrete draw. -/
theorem random_in_range_or_empty_witness :
    RandomPlayStrategy.getNextSong wRng 0 wPl2 = (.ok ⟨"b", "y"⟩, 1) := by
  rw [((random_in_range_or_empty wRng 0 wPl2).1 (by decide)).1]
  rfl

/-- Helper: a Sequential call on a non-empty playlist. -/
theorem seqNext_ok (index : Nat) (p : Playlist) (hp : 0 < p.size) :
    SequentialPlayStrategy.getNextSong index p =
      (.ok (p.songs.getD (index % p.size) default), (index + 1) % p.size) := by
  unfold SequentialPlayStrategy.getNextSong
  rw [if_neg (by omega)]

/-- Helper: closed form of `n` Sequential calls from cursor `index < size`:
the results walk the playlist cyclically from `index`, and the cursor ends
at `(index + n) mod size`. -/
theorem seqCalls_spec (p : Playlist) (hp : 0 < p.size) :
    ∀ (n index : Nat), index < p.size →
      (strategyCalls p n (.sequential index)).1 =
        (List.range n).map
          (fun j => .ok (p.songs.getD ((index + j) % p.size) default)) ∧
      (strategyCalls p n (.sequential index)).2 =
        .sequential ((index + n) % p.size) := by
  intro n
  induction n with
  | zero =>
      intro index hidx
      simp [strategyCalls, Nat.mod_eq_of_lt hidx]
  | succ n ih =>
      intro index hidx
      obtain ⟨ih1, ih2⟩ := ih ((index + 1) % p.size) (Nat.mod_lt _ hp)
      have hstep : strategyCalls p (n + 1) (.sequential index) =
          (.ok (p.songs.getD (index % p.size) default) ::
            (strategyCalls p n (.sequential ((index + 1) % p.size))).1,
           (strategyCalls p n (.sequential ((index + 1) % p.size))).2) := by
        simp only [strategyCalls, StrategyState.getNextSong, seqNext_ok _ p hp]
      rw [hstep]
      refine ⟨?_, ?_⟩
      · show Except.ok (p.songs.getD (index % p.size) default) ::
            (strategyCalls p n (.sequential ((index + 1) % p.size))).1 = _
        rw [ih1, List.range_succ_eq_map, List.map_cons, List.map_map]
        congr 1
        apply List.map_congr_left
        intro a _
        simp only [Function.comp_apply, Nat.succ_eq_add_one]
        have harith : ((index + 1) % p.size + a) % p.size =
            (index + (a + 1)) % p.size := by
          rw [Nat.mod_add_mod]
          congr 1
          omega
        rw [harith]
      · show (strategyCalls p n (.sequential ((index + 1) % p.size))).2 = _
        rw [ih2]
        have harith : ((index + 1) % p.size + n) % p.size =
            (index + (n + 1)) % p.size := by
          rw [Nat.mod_add_mod]
          congr 1
          omega
        rw [harith]

/-- C1: on a non-empty playlist of size `N`, the Sequential strategy's
first `N` calls return the tracks in original playlist order; the
traversal is cyclic — the call at offset `N + k` returns the same track as
the call at offset `k`; and after `reset()` the next `N` calls reproduce
the same order. -/
theorem sequential_order_cyclic_reset (p : Playlist) (hp : 0 < p.size) :
    (strategyCalls p p.size (.sequential 0)).1 = p.songs.map Except.ok ∧
    (∀ k : Nat, seqNthCall p (p.size + k) = seqNthCall p k) ∧
    (∀ index : Nat,
      (strategyCalls p p.size (StrategyState.reset (.sequential index))).1 =
        (strategyCalls p p.size (.sequential 0)).1) := by
  refine ⟨?_, ?_, fun index => rfl⟩
  · rw [((seqCalls_spec p hp) p.size 0 hp).1]
    apply List.ext_getElem
    · simp [Playlist.size]
    · intro i h1 h2
      have h2s : i < p.songs.length := by simpa using h2
      have hi : i < p.size := h2s
      have hidx : (0 + i) % p.size = i := by
        rw [Nat.zero_add, Nat.mod_eq_of_lt hi]
      simp only [List.getElem_map, List.getElem_range, hidx]
      rw [List.getD_eq_getElem p.songs default h2s]
  · intro k
    unfold seqNthCall
    rw [((seqCalls_spec p hp) (p.size + k) 0 hp).2, ((seqCalls_spec p hp) k 0 hp).2]
    simp only [StrategyState.getNextSong]
    rw [seqNext_ok _ p hp, seqNext_ok _ p hp]
    have harith : (0 + (p.size + k)) % p.size % p.size =
        (0 + k) % p.size % p.size := by
      rw [Nat.zero_add, Nat.zero_add, Nat.add_mod_left]
    rw [harith]

/-- Witness for C1 on a concrete two-song playlist. -/
theorem sequential_order_cyclic_reset_witness :
    (strategyCalls wPl2 wPl2.size (.sequential 0)).1 =
      wPl2.songs.map Except.ok :=
  (sequential_order_cyclic_reset wPl2 (by decide)).1

/-- Helper: iterating `playNext` commutes with taking one step first. -/
theorem engAfter_shift (n : Nat) (e : AudioEngine) :
    AudioEngine.engAfter n e.playNext.2 = AudioEngine.engAfter (n + 1) e := by
  induction n with
  | zero => rfl
  | succ n ih =>
      show (AudioEngine.engAfter n e.playNext.2).playNext.2 = _
      rw [ih]
      rfl

/-- Helper: `engAfter` through a known first step. -/
theorem engAfter_after_first (e : AudioEngine) (r : Except PlayError String)
    (e1 : AudioEngine) (hpn : e.playNext = (r, e1)) (j : Nat) :
    AudioEngine.engAfter j e1 = AudioEngine.engAfter (j + 1) e := by
  have h := engAfter_shift j e
  rw [hpn] at h
  exact h

/-- C4: `playMultiple count` runs `playNext` exactly `count` times in
order: when all `count` calls succeed it returns their emitted lines in
call order and ends in the state after `count` calls; and when the call at
offset `k` is the first to fail, it surfaces exactly that error, ends in
the state after `k+1` calls, and performs none of the later iterations. -/
theorem playMultiple_count_and_first_error (n : Nat) (e : AudioEngine) :
    ((∀ j, j < n → ∃ s, (AudioEngine.engAfter j e).playNext.1 = .ok s) →
      AudioEngine.playMultiple n e =
        (.ok ((List.range n).map fun j =>
          okValue (AudioEngine.engAfter j e).playNext.1),
         AudioEngine.engAfter n e)) ∧
    (∀ k er, k < n →
      (∀ j, j < k → ∃ s, (AudioEngine.engAfter j e).playNext.1 = .ok s) →
      (AudioEngine.engAfter k e).playNext.1 = .error er →
      AudioEngine.playMultiple n e =
        (.error er, AudioEngine.engAfter (k + 1) e)) := by
  induction n generalizing e with
  | zero =>
      refine ⟨fun _ => rfl, ?_⟩
      intro k er hk
      exact absurd hk (Nat.not_lt_zero k)
  | succ n ih =>
      constructor
      · intro hok
        obtain ⟨s, hs⟩ := hok 0 (Nat.succ_pos n)
        simp only [AudioEngine.engAfter] at hs
        rcases hpn : e.playNext with ⟨r, e1⟩
        rw [hpn] at hs
        simp only at hs
        subst hs
        have hshift := engAfter_after_first e _ _ hpn
        have hok1 : ∀ j, j < n →
            ∃ s2, (AudioEngine.engAfter j e1).playNext.1 = .ok s2 := by
          intro j hj
          rw [hshift j]
          exact hok (j + 1) (by omega)
        have ihok := (ih e1).1 hok1
        simp only [AudioEngine.playMultiple, hpn, ihok]
        rw [hshift n]
        congr 1
        rw [List.range_succ_eq_map, List.map_cons, List.map_map]
        congr 2
        · simp [AudioEngine.engAfter, hpn, okValue]
        · apply List.map_congr_left
          intro a _
          simp only [Function.comp_apply, Nat.succ_eq_add_one]
          rw [hshift a]
      · intro k er hk hsucc hfail
        cases k with
        | zero =>
            simp only [AudioEngine.engAfter] at hfail
            rcases hpn : e.playNext with ⟨r, e1⟩
            rw [hpn] at hfail
            simp only at hfail
            subst hfail
            simp only [AudioEngine.playMultiple, hpn]
            have : AudioEngine.engAfter 1 e = e1 := by
              show e.playNext.2 = e1
              rw [hpn]
            rw [this]
        | succ k =>
            obtain ⟨s, hs⟩ := hsucc 0 (Nat.succ_pos k)
            simp only [AudioEngine.engAfter] at hs
            rcases hpn : e.playNext with ⟨r, e1⟩
            rw [hpn] at hs
            simp only at hs
            subst hs
            have hshift := engAfter_after_first e _ _ hpn
            have hsucc1 : ∀ j, j < k →
                ∃ s2, (AudioEngine.engAfter j e1).playNext.1 = .ok s2 := by
              intro j hj
              rw [hshift j]
              exact hsucc (j + 1) (by omega)
            have hfail1 : (AudioEngine.engAfter k e1).playNext.1 = .error er := by
              rw [hshift k]
              exact hfail
            have ihab := (ih e1).2 k er (by omega) hsucc1 hfail1
            simp only [AudioEngine.playMultiple, hpn, ihab]
            rw [hshift (k + 1)]

/-- Witness for C4: with an empty bound playlist the very first call
fails, the error surfaces, and the loop aborts. -/
theorem playMultiple_count_and_first_error_witness :
    AudioEngine.playMultiple 2 wEngineEmpty =
      (.error .emptyPlaylist, AudioEngine.engAfter 1 wEngineEmpty) :=
  (playMultiple_count_and_first_error 2 wEngineEmpty).2 0 .emptyPlaylist
    (by omega) (fun j hj => absurd hj (Nat.not_lt_zero j)) rfl

/-- C6: `playNext` fails with notConfigured when any of playlist,
strategy, or device is unbound — in particular on a fresh facade, before
any configure call — and otherwise pulls exactly one track from the
strategy, propagating its error verbatim on failure and pushing the track
to the device on success. -/
theorem playNext_not_configured_or_delegates (e : AudioEngine) :
    ((e.playlist = none ∨ e.strategy = none ∨ e.device = none) →
      e.playNext = (.error .notConfigured, e)) ∧
    (∀ pl st dev, e.playlist = some pl → e.strategy = some st →
      e.device = some dev →
      (∀ s st2, st.getNextSong pl = (.ok s, st2) →
        e.playNext =
          (.ok (dev.playSound s), { e with strategy := some st2 })) ∧
      (∀ er st2, st.getNextSong pl = (.error er, st2) →
        e.playNext = (.error er, { e with strategy := some st2 }))) ∧
    MusicPlayerFacade.init.playNext =
      (.error .notConfigured, MusicPlayerFacade.init) := by
  refine ⟨?_, ?_, rfl⟩
  · intro h
    rcases e with ⟨pl, st, dev⟩
    cases pl <;> cases st <;> cases dev <;> simp_all [AudioEngine.playNext]
  · intro pl st dev hpl hst hdev
    rcases e with ⟨pl0, st0, dev0⟩
    simp only at hpl hst hdev
    subst hpl hst hdev
    constructor
    · intro s st2 hgns
      simp [AudioEngine.playNext, hgns]
    · intro er st2 hgns
      simp [AudioEngine.playNext, hgns]

/-- Witness for C6: one successful delegated call on a configured
engine. -/
theorem playNext_not_configured_or_delegates_witness :
    wEngine.playNext =
      (.ok (OutputDevice.playSound .headphonesAdapter ⟨"a", "x"⟩),
       { wEngine with strategy := some (.sequential 1) }) :=
  ((playNext_not_configured_or_delegates wEngine).2.1 wPl2 (.sequential 0)
    .headphonesAdapter rfl rfl rfl).1 ⟨"a", "x"⟩ (.sequential 1) rfl

/-- C7 counterexample: in `configure`, it is NOT the case that every
discard of a previously held object comes after the engine wiring steps —
`selectDevice` and the `strategyPtr` assignment destroy the old device and
strategy before `setDevice`/`setStrategy`/`loadPlaylist` run. -/
theorem configure_discard_order_counterexample :
    allWiresBeforeDiscards configureEvents = false := rfl

/-- C7 (amended): `configure` discards the old device and strategy at the
creation/assignment steps, before the new objects are wired into the
engine; but since device and strategy construction are total over the
closed kind enumerations, `configure` always succeeds, and afterwards the
engine holds exactly the new device, the freshly reset new strategy, and
the current playlist — so the replacement is atomic from the caller's
perspective, no failure being able to interrupt it. -/
theorem configure_total_and_discards_before_wiring (f : MusicPlayerFacade)
    (rng : Nat → Nat) (dt : DeviceType) (pst : PlayStrategyType) :
    (f.configure rng dt pst).1 = .ok () ∧
    (∃ dev sp, DeviceFactory.create dt = some dev ∧
      StrategyManager.createStrategy rng pst = some sp ∧
      (f.configure rng dt pst).2 =
        { f with
          deviceManager := some dev
          strategyPtr := some sp.reset
          engine := ⟨some f.playlistManager, some sp.reset, some dev⟩ }) ∧
    allDiscardsBeforeWires configureEvents = true := by
  cases dt <;> cases pst <;> exact ⟨rfl, ⟨_, _, rfl, rfl, rfl⟩, rfl⟩

/-- C8: `setStrategy` immediately resets the stored strategy, so after any
`configure` or `configureCustom` the engine's strategy is in its initial
traversal state — re-configuring mid-session after partial playback resets
the cursor even when the strategy kind is unchanged (witnessed by the
mid-session facade whose Sequential cursor sits at 2). -/
theorem setStrategy_resets_after_configure (f : MusicPlayerFacade)
    (rng : Nat → Nat) (dt : DeviceType) :
    (∀ (e : AudioEngine) (ps : StrategyState),
      (e.setStrategy ps).strategy = some ps.reset) ∧
    (∀ pst, (f.configure rng dt pst).2.engine.strategy =
      (StrategyManager.createStrategy rng pst).map StrategyState.reset) ∧
    ((f.configure rng dt .sequential).2.engine.strategy =
      some (.sequential 0)) ∧
    (∀ q : List Nat,
      (f.configureCustom rng dt q).2.engine.strategy =
        some (.customQueue ⟨q, 0⟩)) ∧
    ((wFacadeMid.configure wRng .headphones .sequential).2.engine.strategy =
      some (.sequential 0)) := by
  refine ⟨fun e ps => rfl, ?_, ?_, ?_, rfl⟩
  · intro pst
    cases dt <;> cases pst <;> rfl
  · cases dt <;> rfl
  · intro q
    cases dt <;> rfl
